import Mathlib

/-!
Verification of the streamed-data protocol core of the papyrus repository.

This file is a shallow embedding of
crates/papyrus_network/src/streamed_data_protocol/behaviour.rs and
crates/papyrus_network/src/streamed_data_protocol/handler.rs.

Modelling conventions:
- PeerId, ConnectionId, the opaque Query and Data payloads, io error payloads and
  durations are modelled as naturals; protocol names as strings.
- HashMap fields are modelled as association lists (first binding wins on lookup);
  HashSet fields as duplicate-free lists. Iteration order of a hash map is
  arbitrary in Rust; the list order plays that role here. None of the proved
  properties depends on a particular iteration order.
- VecDeque push_back appends at the end of a list, pop_front takes the head.
- Asynchronous poll outcomes of session engines (which depend on external I/O)
  are supplied as oracle functions to the poll model.
- The Behaviour record carries one ghost field, emitted_history, recording every
  GenerateEvent ever pushed, in push order. It is not a field of the Rust struct;
  it only serves to state trace properties about events emitted upward.
-/

deriving instance DecidableEq for Except

namespace StreamedData

/-- Peer identifiers (libp2p PeerId), modelled as naturals. -/
abbrev PeerId := Nat

/-- Connection identifiers (libp2p ConnectionId), modelled as naturals. -/
abbrev ConnectionId := Nat

/-- The application query payload; opaque to the protocol, modelled as a natural. -/
abbrev Query := Nat

/-- The application data payload; opaque to the protocol, modelled as a natural. -/
abbrev Data := Nat

/-- SessionId from the protocol module: a tagged union of the inbound and outbound
id spaces (each id a non-negative integer). -/
inductive SessionId
  | inbound (value : Nat)
  | outbound (value : Nat)
deriving DecidableEq

/-- Association-list lookup, modelling HashMap::get: the first binding of the key. -/
def alookup {κ α : Type} [DecidableEq κ] : List (κ × α) → κ → Option α
  | [], _ => none
  | (k2, v) :: rest, k => if k2 = k then some v else alookup rest k

/-- Association-list removal of every binding of a key, modelling HashMap::remove. -/
def aerase {κ α : Type} [DecidableEq κ] (l : List (κ × α)) (k : κ) : List (κ × α) :=
  l.filter (fun kv => decide (kv.1 ≠ k))

/-- Association-list insertion with replacement, modelling HashMap::insert. -/
def ainsert {κ α : Type} [DecidableEq κ] (l : List (κ × α)) (k : κ) (v : α) :
    List (κ × α) :=
  (k, v) :: aerase l k

/-- In-place update of the binding of a key, modelling HashMap::get_mut followed by
a mutation of the value. Bindings of other keys are untouched and order is kept. -/
def aupdate {κ α : Type} [DecidableEq κ] (l : List (κ × α)) (k : κ) (f : α → α) :
    List (κ × α) :=
  l.map (fun kv => if kv.1 = k then (kv.1, f kv.2) else kv)

/-- The keys of an association list. -/
def keysOf {κ α : Type} (l : List (κ × α)) : List κ := l.map Prod.fst

/-- SessionError of handler.rs: the handler-local error taxonomy. -/
inductive HSessionError
  | Timeout (substream_timeout : Nat)
  | IOError (e : Nat)
  | RemoteDoesntSupportProtocol (protocol_name : String)
deriving DecidableEq

/-- SessionError of behaviour.rs: the wider taxonomy, additionally containing
ConnectionClosed. -/
inductive BSessionError
  | Timeout (substream_timeout : Nat)
  | IOError (e : Nat)
  | RemoteDoesntSupportProtocol (protocol_name : String)
  | ConnectionClosed
deriving DecidableEq

/-- GenericEvent instantiated with the handler error type: events the handler
reports to the behaviour. -/
inductive HEvent
  | NewInboundSession (query : Query) (inbound_session_id : Nat) (peer_id : PeerId)
  | ReceivedData (outbound_session_id : Nat) (data : Data)
  | SessionFailed (session_id : SessionId) (error : HSessionError)
  | SessionClosedByRequest (session_id : SessionId)
  | SessionClosedByPeer (session_id : SessionId)
deriving DecidableEq

/-- GenericEvent instantiated with the behaviour error type: events the behaviour
emits upward to the application. -/
inductive BEvent
  | NewInboundSession (query : Query) (inbound_session_id : Nat) (peer_id : PeerId)
  | ReceivedData (outbound_session_id : Nat) (data : Data)
  | SessionFailed (session_id : SessionId) (error : BSessionError)
  | SessionClosedByRequest (session_id : SessionId)
  | SessionClosedByPeer (session_id : SessionId)
deriving DecidableEq

/-- The From conversion in behaviour.rs from handler events to behaviour events:
identical except that each handler error variant maps to the same-named wider
variant. -/
def eventFromHandler : HEvent → BEvent
  | .NewInboundSession q i p => .NewInboundSession q i p
  | .ReceivedData o d => .ReceivedData o d
  | .SessionFailed sid (.Timeout t) => .SessionFailed sid (.Timeout t)
  | .SessionFailed sid (.IOError e) => .SessionFailed sid (.IOError e)
  | .SessionFailed sid (.RemoteDoesntSupportProtocol n) =>
      .SessionFailed sid (.RemoteDoesntSupportProtocol n)
  | .SessionClosedByRequest sid => .SessionClosedByRequest sid
  | .SessionClosedByPeer sid => .SessionClosedByPeer sid

/-- RequestFromBehaviourEvent of handler.rs: the three requests a behaviour sends
to a handler. -/
inductive RequestFromBehaviourEvent
  | CreateOutboundSession (query : Query) (outbound_session_id : Nat)
  | SendData (data : Data) (inbound_session_id : Nat)
  | CloseSession (session_id : SessionId)
deriving DecidableEq

/-- ToSwarm commands pushed by the behaviour: upward events (GenerateEvent) and
handler notifications (NotifyHandler::One over a given connection). -/
inductive ToSwarmEvent
  | GenerateEvent (event : BEvent)
  | NotifyHandler (peer_id : PeerId) (connection_id : ConnectionId)
      (event : RequestFromBehaviourEvent)
deriving DecidableEq

/-- The error type of send_query when no connection to the peer exists. -/
inductive PeerNotConnected
  | mk
deriving DecidableEq

/-- The error type of send_data and close_session on an unknown session id. -/
inductive SessionIdNotFoundError
  | mk
deriving DecidableEq

/-- The Behaviour struct of behaviour.rs. The shared atomic inbound counter is
modelled by its current value; emitted_history is a ghost field (see the header). -/
structure Behaviour where
  pending_events : List ToSwarmEvent
  pending_queries : List (PeerId × List (Query × Nat))
  connection_ids_map : List (PeerId × List ConnectionId)
  session_id_to_peer_id_and_connection_id : List (SessionId × (PeerId × ConnectionId))
  next_outbound_session_id : Nat
  next_inbound_session_id : Nat
  emitted_history : List BEvent
deriving DecidableEq

/-- Behaviour::new with a default config: every container empty, both counters zero. -/
def Behaviour.new : Behaviour :=
  { pending_events := []
    pending_queries := []
    connection_ids_map := []
    session_id_to_peer_id_and_connection_id := []
    next_outbound_session_id := 0
    next_inbound_session_id := 0
    emitted_history := [] }

/-- DefaultHashMap::get on connection_ids_map: the connection set of a peer, the
empty set when the peer is absent. Does not insert a default entry. -/
def Behaviour.connection_ids_get (b : Behaviour) (peer_id : PeerId) :
    List ConnectionId :=
  (alookup b.connection_ids_map peer_id).getD []

/-- Behaviour::send_query. Picks a connection of the peer (the source takes an
arbitrary element of the hash set via iter().next(); the model takes the head),
allocates the next outbound id, records the routing binding and enqueues a
NotifyHandler::One carrying CreateOutboundSession. -/
def Behaviour.send_query (b : Behaviour) (query : Query) (peer_id : PeerId) :
    Except PeerNotConnected Nat × Behaviour :=
  match b.connection_ids_get peer_id with
  | [] => (.error .mk, b)
  | connection_id :: _ =>
    let outbound_session_id := b.next_outbound_session_id
    (.ok outbound_session_id,
      { b with
          next_outbound_session_id := outbound_session_id + 1
          session_id_to_peer_id_and_connection_id :=
            ainsert b.session_id_to_peer_id_and_connection_id
              (.outbound outbound_session_id) (peer_id, connection_id)
          pending_events := b.pending_events ++
            [.NotifyHandler peer_id connection_id
              (.CreateOutboundSession query outbound_session_id)] })

/-- Behaviour::get_peer_id_and_connection_id_from_session_id: routing lookup. -/
def Behaviour.get_peer_id_and_connection_id_from_session_id (b : Behaviour)
    (session_id : SessionId) :
    Except SessionIdNotFoundError (PeerId × ConnectionId) :=
  match alookup b.session_id_to_peer_id_and_connection_id session_id with
  | some pc => .ok pc
  | none => .error .mk

/-- Behaviour::send_data: routing lookup for the inbound id, then enqueue a
NotifyHandler::One carrying SendData. -/
def Behaviour.send_data (b : Behaviour) (data : Data) (inbound_session_id : Nat) :
    Except SessionIdNotFoundError Unit × Behaviour :=
  match b.get_peer_id_and_connection_id_from_session_id (.inbound inbound_session_id) with
  | .error e => (.error e, b)
  | .ok (peer_id, connection_id) =>
    (.ok (),
      { b with
          pending_events := b.pending_events ++
            [.NotifyHandler peer_id connection_id (.SendData data inbound_session_id)] })

/-- Behaviour::close_session: routing lookup, then enqueue a NotifyHandler::One
carrying CloseSession. The routing entry is not removed here. -/
def Behaviour.close_session (b : Behaviour) (session_id : SessionId) :
    Except SessionIdNotFoundError Unit × Behaviour :=
  match b.get_peer_id_and_connection_id_from_session_id session_id with
  | .error e => (.error e, b)
  | .ok (peer_id, connection_id) =>
    (.ok (),
      { b with
          pending_events := b.pending_events ++
            [.NotifyHandler peer_id connection_id (.CloseSession session_id)] })

/-- Whether a routing entry is bound to the given peer and connection; the
predicate of the retain call in the ConnectionClosed arm of on_swarm_event. -/
def sessionMatches (peer_id : PeerId) (connection_id : ConnectionId)
    (kv : SessionId × (PeerId × ConnectionId)) : Bool :=
  decide (kv.2.1 = peer_id) && decide (kv.2.2 = connection_id)

/-- The ConnectionEstablished arm of Behaviour::on_swarm_event: add the connection
id to the connection set of the peer (get_mut on the default map creates the entry,
HashSet::insert deduplicates). -/
def Behaviour.on_connection_established (b : Behaviour) (peer_id : PeerId)
    (connection_id : ConnectionId) : Behaviour :=
  let conns := b.connection_ids_get peer_id
  let conns2 := if connection_id ∈ conns then conns else conns ++ [connection_id]
  { b with connection_ids_map := ainsert b.connection_ids_map peer_id conns2 }

/-- The ConnectionClosed arm of Behaviour::on_swarm_event: retain scans the routing
table, and for every entry bound to the closed (peer, connection) pushes a
SessionFailed with error ConnectionClosed and drops the entry. The connection set
in connection_ids_map is not touched by the source. -/
def Behaviour.on_connection_closed (b : Behaviour) (peer_id : PeerId)
    (connection_id : ConnectionId) : Behaviour :=
  let closed := b.session_id_to_peer_id_and_connection_id.filter
    (fun kv => sessionMatches peer_id connection_id kv)
  let events := closed.map (fun kv => BEvent.SessionFailed kv.1 .ConnectionClosed)
  { b with
      session_id_to_peer_id_and_connection_id :=
        b.session_id_to_peer_id_and_connection_id.filter
          (fun kv => !sessionMatches peer_id connection_id kv)
      pending_events := b.pending_events ++ events.map .GenerateEvent
      emitted_history := b.emitted_history ++ events }

/-- Behaviour::on_connection_handler_event: convert the handler event, update the
routing table (insert on NewInboundSession, remove on any terminal event, nothing
on ReceivedData), then push the converted event unconditionally. -/
def Behaviour.on_connection_handler_event (b : Behaviour) (peer_id : PeerId)
    (connection_id : ConnectionId) (event : HEvent) : Behaviour :=
  let converted_event := eventFromHandler event
  let table :=
    match converted_event with
    | .NewInboundSession _ iid _ =>
        ainsert b.session_id_to_peer_id_and_connection_id (.inbound iid)
          (peer_id, connection_id)
    | .SessionFailed sid _ => aerase b.session_id_to_peer_id_and_connection_id sid
    | .SessionClosedByRequest sid =>
        aerase b.session_id_to_peer_id_and_connection_id sid
    | .SessionClosedByPeer sid =>
        aerase b.session_id_to_peer_id_and_connection_id sid
    | .ReceivedData _ _ => b.session_id_to_peer_id_and_connection_id
  { b with
      session_id_to_peer_id_and_connection_id := table
      pending_events := b.pending_events ++ [.GenerateEvent converted_event]
      emitted_history := b.emitted_history ++ [converted_event] }

/-- Behaviour::poll: pop the front pending event, Pending when the queue is empty. -/
def Behaviour.pollOnce (b : Behaviour) : Option ToSwarmEvent × Behaviour :=
  match b.pending_events with
  | [] => (none, b)
  | e :: rest => (some e, { b with pending_events := rest })

/-- One input consumed by the behaviour: a swarm lifecycle signal, a handler
event, or an application API call. -/
inductive InputEvent
  | connectionEstablished (peer_id : PeerId) (connection_id : ConnectionId)
  | connectionClosed (peer_id : PeerId) (connection_id : ConnectionId)
  | handlerEvent (peer_id : PeerId) (connection_id : ConnectionId) (event : HEvent)
  | sendQueryCall (query : Query) (peer_id : PeerId)
  | sendDataCall (data : Data) (inbound_session_id : Nat)
  | closeSessionCall (session_id : SessionId)
deriving DecidableEq

/-- The behaviour transition on one input (results of API calls discarded). -/
def Behaviour.step (b : Behaviour) : InputEvent → Behaviour
  | .connectionEstablished p c => b.on_connection_established p c
  | .connectionClosed p c => b.on_connection_closed p c
  | .handlerEvent p c e => b.on_connection_handler_event p c e
  | .sendQueryCall q p => (b.send_query q p).2
  | .sendDataCall d i => (b.send_data d i).2
  | .closeSessionCall sid => (b.close_session sid).2

/-- The behaviour state after consuming a whole input trace. -/
def Behaviour.run (b : Behaviour) (tr : List InputEvent) : Behaviour :=
  tr.foldl Behaviour.step b

/-- The session id of a terminal behaviour event (SessionFailed,
SessionClosedByRequest, SessionClosedByPeer), none for the other events. -/
def BEvent.terminalId : BEvent → Option SessionId
  | .SessionFailed sid _ => some sid
  | .SessionClosedByRequest sid => some sid
  | .SessionClosedByPeer sid => some sid
  | _ => none

/-- The session id of a terminal handler event. -/
def HEvent.terminalId : HEvent → Option SessionId
  | .SessionFailed sid _ => some sid
  | .SessionClosedByRequest sid => some sid
  | .SessionClosedByPeer sid => some sid
  | _ => none

/-- The session ids of the terminal events of an event list, in order. -/
def terminalIds (es : List BEvent) : List SessionId :=
  es.filterMap BEvent.terminalId

/-- Environment well-formedness of one input against the current behaviour state,
reflecting what the connection handlers guarantee: a NewInboundSession id is fresh
(inbound ids come from the shared monotone counter and each is reported at most
once, so it can never equal an id whose terminal event was already emitted), and
any terminal handler event bearing an outbound id concerns an id that send_query
has already allocated. -/
def wfInput (b : Behaviour) : InputEvent → Bool
  | .handlerEvent _ _ e =>
    match e with
    | .NewInboundSession _ iid _ =>
        decide (SessionId.inbound iid ∉ terminalIds b.emitted_history)
    | _ =>
      match e.terminalId with
      | some (.outbound o) => decide (o < b.next_outbound_session_id)
      | _ => true
  | _ => true

/-- Well-formedness of a whole input trace from a given behaviour state. -/
def wfTrace (b : Behaviour) : List InputEvent → Bool
  | [] => true
  | e :: tr => wfInput b e && wfTrace (b.step e) tr

/-- The inductive invariant of the behaviour used for the routing-table
properties: terminal-emitted ids are absent from the routing table, outbound ids
in the table and in the terminal history are below the outbound counter, and the
table has duplicate-free keys. -/
def Behaviour.Inv (b : Behaviour) : Prop :=
  (∀ sid ∈ terminalIds b.emitted_history,
      alookup b.session_id_to_peer_id_and_connection_id sid = none) ∧
  (∀ o, SessionId.outbound o ∈ keysOf b.session_id_to_peer_id_and_connection_id →
      o < b.next_outbound_session_id) ∧
  (∀ o, SessionId.outbound o ∈ terminalIds b.emitted_history →
      o < b.next_outbound_session_id) ∧
  (keysOf b.session_id_to_peer_id_and_connection_id).Nodup

/-- Spec-side definition (for comparison with the code): the connections currently
established after a trace, per the spec notion that ConnectionEstablished adds a
connection and ConnectionClosed removes it. -/
def establishedConnections (tr : List InputEvent) : List (PeerId × ConnectionId) :=
  tr.foldl
    (fun acc e =>
      match e with
      | .connectionEstablished p c => if (p, c) ∈ acc then acc else acc ++ [(p, c)]
      | .connectionClosed p c => acc.filter (fun pc => decide (pc ≠ (p, c)))
      | _ => acc)
    []

/-- The Config record: protocol name and substream timeout (as a natural). -/
structure Config where
  protocol_name : String
  substream_timeout : Nat
deriving DecidableEq

/-- Modelled from the spec: the inbound session engine of session.rs, which is not
under src. Per sections 3 and 4.B of the spec, the engine buffers the data frames
queued by add_message_to_queue in order; start_closing moves it to the Closing
state; add_message_to_queue fails silently once the engine is closing; is_waiting
is true iff the engine has no pending write and is not yet closing. The engine is
created by the handler only after the query was already read during the substream
upgrade, so the model starts in the Waiting-or-writing phase. -/
structure InboundSession where
  pending_messages : List Data
  closing : Bool
deriving DecidableEq

/-- Modelled from the spec: a fresh inbound engine with an empty queue, not closing. -/
def InboundSession.new : InboundSession :=
  { pending_messages := [], closing := false }

/-- Modelled from the spec: append a data frame to the queue; silently dropped when
the engine is already closing. -/
def InboundSession.add_message_to_queue (s : InboundSession) (data : Data) :
    InboundSession :=
  if s.closing then s
  else { s with pending_messages := s.pending_messages ++ [data] }

/-- Modelled from the spec: true iff no pending write and not yet closing. -/
def InboundSession.is_waiting (s : InboundSession) : Bool :=
  s.pending_messages.isEmpty && !s.closing

/-- Modelled from the spec: the idempotent transition to the Closing state. -/
def InboundSession.start_closing (s : InboundSession) : InboundSession :=
  { s with closing := true }

/-- ConnectionHandlerEvent values the handler pushes: events for the behaviour and
outbound substream requests (carrying the query, the outbound id and the
configured timeout). -/
inductive HandlerOutEvent
  | NotifyBehaviour (event : HEvent)
  | OutboundSubstreamRequest (query : Query) (outbound_session_id : Nat)
      (substream_timeout : Nat)
deriving DecidableEq

/-- The Handler struct of handler.rs. The shared atomic inbound counter is
modelled by its current value. An outbound session engine is an opaque stream
whose frames come from external I/O, so the map to outbound engines is modelled
by the list of live outbound ids, and poll outcomes are supplied by oracles. -/
structure Handler where
  config : Config
  next_inbound_session_id : Nat
  peer_id : PeerId
  id_to_inbound_session : List (Nat × InboundSession)
  id_to_outbound_session : List Nat
  pending_events : List HandlerOutEvent
  inbound_sessions_marked_to_end : List Nat
deriving DecidableEq

/-- Handler::new. -/
def Handler.new (config : Config) (next_inbound_session_id : Nat)
    (peer_id : PeerId) : Handler :=
  { config := config
    next_inbound_session_id := next_inbound_session_id
    peer_id := peer_id
    id_to_inbound_session := []
    id_to_outbound_session := []
    pending_events := []
    inbound_sessions_marked_to_end := [] }

/-- Handler::listen_protocol: advertise the configured protocol and allocate a
fresh inbound id by fetch_add(1) on the shared counter; returns the substream
protocol info (protocol name, allocated inbound id, timeout) and the state with
the incremented counter. -/
def Handler.listen_protocol (h : Handler) : (String × Nat × Nat) × Handler :=
  ((h.config.protocol_name, h.next_inbound_session_id, h.config.substream_timeout),
    { h with next_inbound_session_id := h.next_inbound_session_id + 1 })

/-- Handler::on_behaviour_event, mirroring the four match arms of the source:
CreateOutboundSession enqueues an outbound substream request; SendData appends to
the queue of the target inbound engine only when it exists and is not marked to
end (otherwise the request is logged and dropped); CloseSession on an inbound id
marks the id and immediately enqueues SessionClosedByRequest; CloseSession on an
outbound id removes the outbound engine and enqueues SessionClosedByRequest,
both unconditionally. -/
def Handler.on_behaviour_event (h : Handler) : RequestFromBehaviourEvent → Handler
  | .CreateOutboundSession query outbound_session_id =>
    { h with
        pending_events := h.pending_events ++
          [.OutboundSubstreamRequest query outbound_session_id
            h.config.substream_timeout] }
  | .SendData data inbound_session_id =>
    match alookup h.id_to_inbound_session inbound_session_id with
    | some _ =>
      if inbound_session_id ∈ h.inbound_sessions_marked_to_end then h
      else
        { h with
            id_to_inbound_session :=
              aupdate h.id_to_inbound_session inbound_session_id
                (fun s => s.add_message_to_queue data) }
    | none => h
  | .CloseSession (.inbound inbound_session_id) =>
    { h with
        inbound_sessions_marked_to_end :=
          if inbound_session_id ∈ h.inbound_sessions_marked_to_end then
            h.inbound_sessions_marked_to_end
          else h.inbound_sessions_marked_to_end ++ [inbound_session_id]
        pending_events := h.pending_events ++
          [.NotifyBehaviour (.SessionClosedByRequest (.inbound inbound_session_id))] }
  | .CloseSession (.outbound outbound_session_id) =>
    { h with
        id_to_outbound_session :=
          h.id_to_outbound_session.filter (fun o => decide (o ≠ outbound_session_id))
        pending_events := h.pending_events ++
          [.NotifyBehaviour (.SessionClosedByRequest (.outbound outbound_session_id))] }

/-- The asynchronous outcome of polling an inbound session engine once: still
pending, finished successfully, or finished with an io error. -/
inductive InbPollRes
  | pending
  | success
  | ioError (e : Nat)
deriving DecidableEq

/-- The asynchronous outcome of polling an outbound session stream for its next
frame: a data item, an io error, a clean end of stream, or pending. -/
inductive OutPollRes
  | item (data : Data)
  | ioError (e : Nat)
  | streamEnd
  | pending
deriving DecidableEq

/-- Handler::poll_inbound_session: given the poll outcome of the engine, return
whether the session finished together with the events to push; an error finish
pushes SessionFailed with an IOError, a successful finish pushes nothing. -/
def poll_inbound_session (inbound_session_id : Nat) (res : InbPollRes) :
    Bool × List HandlerOutEvent :=
  match res with
  | .pending => (false, [])
  | .success => (true, [])
  | .ioError e =>
    (true,
      [.NotifyBehaviour (.SessionFailed (.inbound inbound_session_id) (.IOError e))])

/-- One entry of the inbound retain loop of Handler::poll: poll the engine; if it
finished drop it; otherwise, if it is marked to end and is waiting, start closing
and poll once more, dropping it if that second poll finished. Returns the kept
entry (if any) and the events pushed. The oracles inb1 and inb2 give the outcome
of the first and of the second poll of each id. -/
def pollInboundStep (marked : List Nat) (inb1 inb2 : Nat → InbPollRes)
    (kv : Nat × InboundSession) :
    Option (Nat × InboundSession) × List HandlerOutEvent :=
  let (finished1, evs1) := poll_inbound_session kv.1 (inb1 kv.1)
  if finished1 then (none, evs1)
  else if kv.1 ∈ marked && kv.2.is_waiting then
    let s2 := kv.2.start_closing
    let (finished2, evs2) := poll_inbound_session kv.1 (inb2 kv.1)
    if finished2 then (none, evs1 ++ evs2) else (some (kv.1, s2), evs1 ++ evs2)
  else (some (kv.1, kv.2), evs1)

/-- The inbound retain loop of Handler::poll over the whole inbound map, pushing
events in iteration order. -/
def pollInboundPhase (h : Handler) (inb1 inb2 : Nat → InbPollRes) : Handler :=
  let folded := h.id_to_inbound_session.foldl
    (fun acc kv =>
      let r := pollInboundStep h.inbound_sessions_marked_to_end inb1 inb2 kv
      (acc.1 ++ r.1.toList, acc.2 ++ r.2))
    (([] : List (Nat × InboundSession)), ([] : List HandlerOutEvent))
  { h with
      id_to_inbound_session := folded.1
      pending_events := h.pending_events ++ folded.2 }

/-- One entry of the outbound retain loop of Handler::poll: a data item pushes
ReceivedData and keeps the engine; an io error pushes SessionFailed with IOError
and drops it; a clean end pushes SessionClosedByPeer and drops it; pending keeps
it silently. Returns whether the engine is kept and the events pushed. -/
def pollOutboundStep (outP : Nat → OutPollRes) (outbound_session_id : Nat) :
    Bool × List HandlerOutEvent :=
  match outP outbound_session_id with
  | .item data =>
    (true, [.NotifyBehaviour (.ReceivedData outbound_session_id data)])
  | .ioError e =>
    (false,
      [.NotifyBehaviour
        (.SessionFailed (.outbound outbound_session_id) (.IOError e))])
  | .streamEnd =>
    (false,
      [.NotifyBehaviour (.SessionClosedByPeer (.outbound outbound_session_id))])
  | .pending => (true, [])

/-- The outbound retain loop of Handler::poll over the whole outbound map. -/
def pollOutboundPhase (h : Handler) (outP : Nat → OutPollRes) : Handler :=
  let folded := h.id_to_outbound_session.foldl
    (fun acc oid =>
      let r := pollOutboundStep outP oid
      (if r.1 then acc.1 ++ [oid] else acc.1, acc.2 ++ r.2))
    (([] : List Nat), ([] : List HandlerOutEvent))
  { h with
      id_to_outbound_session := folded.1
      pending_events := h.pending_events ++ folded.2 }

/-- Handler::poll: first the inbound loop, then the outbound loop, and only then
pop one buffered event (Ready with that event) or return Pending (modelled as
none) when the queue is empty. -/
def Handler.poll (h : Handler) (inb1 inb2 : Nat → InbPollRes)
    (outP : Nat → OutPollRes) : Option HandlerOutEvent × Handler :=
  let h1 := pollInboundPhase h inb1 inb2
  let h2 := pollOutboundPhase h1 outP
  match h2.pending_events with
  | [] => (none, h2)
  | e :: rest => (some e, { h2 with pending_events := rest })

/-- Iterated allocation of inbound ids through listen_protocol: the list of the
allocated ids in order, together with the final state. Because the counter is
shared process-wide, this models the global allocation sequence across all
connections. -/
def allocateInboundIds (h : Handler) : Nat → List Nat × Handler
  | 0 => ([], h)
  | n + 1 =>
    let r1 := h.listen_protocol
    let r2 := allocateInboundIds r1.2 n
    (r1.1.2.1 :: r2.1, r2.2)

/-- The outbound ids returned by the successful send_query calls of a trace, in
call order. -/
def Behaviour.outboundIdsAllocated (b : Behaviour) : List InputEvent → List Nat
  | [] => []
  | e :: tr =>
    let ids :=
      match e with
      | .sendQueryCall q p =>
        match (b.send_query q p).1 with
        | .ok oid => [oid]
        | .error _ => []
      | _ => []
    ids ++ (b.step e).outboundIdsAllocated tr

/-- The StreamUpgradeError cases handled by the DialUpgradeError arm of
Handler::on_connection_event. -/
inductive StreamUpgradeErrorM
  | Timeout
  | Apply (e : Nat)
  | NegotiationFailed
  | Io (e : Nat)
deriving DecidableEq

/-- The ConnectionEvent cases handled by Handler::on_connection_event:
a fully negotiated inbound substream delivering the query and the pre-allocated
inbound id, a fully negotiated outbound substream delivering the requested
outbound id, and a dial upgrade error for an outbound id. -/
inductive ConnectionEventM
  | FullyNegotiatedInbound (query : Query) (inbound_session_id : Nat)
  | FullyNegotiatedOutbound (outbound_session_id : Nat)
  | DialUpgradeError (outbound_session_id : Nat) (error : StreamUpgradeErrorM)
deriving DecidableEq

/-- Handler::on_connection_event: FullyNegotiatedOutbound installs an outbound
engine under the requested id; FullyNegotiatedInbound pushes NewInboundSession
and inserts a fresh inbound engine; DialUpgradeError translates the upgrade error
and pushes SessionFailed for the outbound id; other events are ignored. -/
def Handler.on_connection_event (h : Handler) : ConnectionEventM → Handler
  | .FullyNegotiatedOutbound outbound_session_id =>
    { h with
        id_to_outbound_session :=
          if outbound_session_id ∈ h.id_to_outbound_session then
            h.id_to_outbound_session
          else h.id_to_outbound_session ++ [outbound_session_id] }
  | .FullyNegotiatedInbound query inbound_session_id =>
    { h with
        pending_events := h.pending_events ++
          [.NotifyBehaviour (.NewInboundSession query inbound_session_id h.peer_id)]
        id_to_inbound_session :=
          ainsert h.id_to_inbound_session inbound_session_id InboundSession.new }
  | .DialUpgradeError outbound_session_id upgrade_error =>
    let session_error :=
      match upgrade_error with
      | .Timeout => HSessionError.Timeout h.config.substream_timeout
      | .Apply e => HSessionError.IOError e
      | .NegotiationFailed =>
          HSessionError.RemoteDoesntSupportProtocol h.config.protocol_name
      | .Io e => HSessionError.IOError e
    { h with
        pending_events := h.pending_events ++
          [.NotifyBehaviour
            (.SessionFailed (.outbound outbound_session_id) session_error)] }

/-! ### Association-list lemmas -/

theorem alookup_cons {κ α : Type} [DecidableEq κ] (k2 : κ) (v : α)
    (rest : List (κ × α)) (k : κ) :
    alookup ((k2, v) :: rest) k = if k2 = k then some v else alookup rest k := rfl

theorem alookup_eq_none_iff {κ α : Type} [DecidableEq κ] (l : List (κ × α)) (k : κ) :
    alookup l k = none ↔ k ∉ keysOf l := by
  induction l with
  | nil => simp [alookup, keysOf]
  | cons kv rest ih =>
    obtain ⟨k2, v⟩ := kv
    rw [alookup_cons]
    by_cases h : k2 = k
    · subst h
      simp [keysOf]
    · simp [keysOf, h, ih, Ne.symm h]

theorem alookup_mem {κ α : Type} [DecidableEq κ] {l : List (κ × α)} {k : κ} {v : α}
    (h : alookup l k = some v) : (k, v) ∈ l := by
  induction l with
  | nil => simp [alookup] at h
  | cons kv rest ih =>
    obtain ⟨k2, w⟩ := kv
    rw [alookup_cons] at h
    by_cases hk : k2 = k
    · subst hk
      simp at h
      subst h
      exact List.mem_cons_self _ _
    · rw [if_neg hk] at h
      exact List.mem_cons_of_mem _ (ih h)

theorem keysOf_filter_subset {κ α : Type} (l : List (κ × α)) (p : κ × α → Bool)
    {k : κ} (h : k ∈ keysOf (l.filter p)) : k ∈ keysOf l :=
  ((List.filter_sublist l).map Prod.fst).subset h

theorem alookup_filter_none {κ α : Type} [DecidableEq κ] (l : List (κ × α))
    (p : κ × α → Bool) (k : κ) (h : alookup l k = none) :
    alookup (l.filter p) k = none := by
  rw [alookup_eq_none_iff] at h ⊢
  exact fun hmem => h (keysOf_filter_subset l p hmem)

theorem nodup_keys_filter {κ α : Type} (l : List (κ × α)) (p : κ × α → Bool)
    (h : (keysOf l).Nodup) : (keysOf (l.filter p)).Nodup :=
  List.Nodup.sublist ((List.filter_sublist l).map Prod.fst) h

theorem nodup_keys_eq_of_mem {κ α : Type} {l : List (κ × α)}
    (h : (keysOf l).Nodup) {x y : κ × α} (hx : x ∈ l) (hy : y ∈ l)
    (hk : x.1 = y.1) : x = y := by
  induction l with
  | nil => simp at hx
  | cons a rest ih =>
    rw [keysOf] at h
    simp only [List.map_cons, List.nodup_cons] at h
    obtain ⟨ha, hrest⟩ := h
    rcases List.mem_cons.mp hx with hx1 | hx2 <;>
      rcases List.mem_cons.mp hy with hy1 | hy2
    · rw [hx1, hy1]
    · exfalso
      apply ha
      rw [hx1] at hk
      rw [hk]
      exact List.mem_map_of_mem Prod.fst hy2
    · exfalso
      apply ha
      rw [hy1] at hk
      rw [← hk]
      exact List.mem_map_of_mem Prod.fst hx2
    · exact ih hrest hx2 hy2

theorem not_mem_keys_aerase {κ α : Type} [DecidableEq κ] (l : List (κ × α)) (k : κ) :
    k ∉ keysOf (aerase l k) := by
  intro hmem
  rw [keysOf, List.mem_map] at hmem
  obtain ⟨kv, hkv, hfst⟩ := hmem
  rw [aerase, List.mem_filter] at hkv
  exact (of_decide_eq_true hkv.2) hfst

theorem alookup_aerase_self {κ α : Type} [DecidableEq κ] (l : List (κ × α)) (k : κ) :
    alookup (aerase l k) k = none :=
  (alookup_eq_none_iff _ _).mpr (not_mem_keys_aerase l k)

theorem alookup_aerase_ne {κ α : Type} [DecidableEq κ] (l : List (κ × α))
    {k k2 : κ} (h : k2 ≠ k) : alookup (aerase l k) k2 = alookup l k2 := by
  induction l with
  | nil => rfl
  | cons kv rest ih =>
    obtain ⟨a, v⟩ := kv
    simp only [aerase, List.filter_cons] at ih ⊢
    by_cases ha : a = k
    · subst ha
      rw [if_neg (by simp)]
      rw [ih, alookup_cons, if_neg (fun hh => h hh.symm)]
    · rw [if_pos (by simp [ha])]
      rw [alookup_cons, alookup_cons, ih]

theorem alookup_ainsert_self {κ α : Type} [DecidableEq κ] (l : List (κ × α))
    (k : κ) (v : α) : alookup (ainsert l k v) k = some v := by
  rw [ainsert, alookup_cons, if_pos rfl]

theorem alookup_ainsert_ne {κ α : Type} [DecidableEq κ] (l : List (κ × α))
    {k k2 : κ} (v : α) (h : k2 ≠ k) :
    alookup (ainsert l k v) k2 = alookup l k2 := by
  rw [ainsert, alookup_cons, if_neg (fun hh => h hh.symm), alookup_aerase_ne l h]

theorem keysOf_ainsert_mem {κ α : Type} [DecidableEq κ] {l : List (κ × α)}
    {k k2 : κ} {v : α} (h : k2 ∈ keysOf (ainsert l k v)) :
    k2 = k ∨ k2 ∈ keysOf l := by
  rw [ainsert, keysOf, List.map_cons] at h
  rcases List.mem_cons.mp h with h1 | h2
  · exact Or.inl h1
  · exact Or.inr (keysOf_filter_subset l _ h2)

theorem nodup_keys_ainsert {κ α : Type} [DecidableEq κ] (l : List (κ × α))
    (k : κ) (v : α) (h : (keysOf l).Nodup) : (keysOf (ainsert l k v)).Nodup := by
  rw [ainsert, keysOf, List.map_cons, List.nodup_cons]
  exact ⟨not_mem_keys_aerase l k, nodup_keys_filter l _ h⟩

theorem alookup_aupdate_self {κ α : Type} [DecidableEq κ] {l : List (κ × α)}
    {k : κ} {v : α} (f : α → α) (h : alookup l k = some v) :
    alookup (aupdate l k f) k = some (f v) := by
  induction l with
  | nil => simp [alookup] at h
  | cons kv rest ih =>
    obtain ⟨a, w⟩ := kv
    rw [alookup_cons] at h
    by_cases ha : a = k
    · subst ha
      rw [if_pos rfl] at h
      injection h with h
      subst h
      simp [aupdate, alookup_cons]
    · rw [if_neg ha] at h
      simp only [aupdate, List.map_cons, if_neg ha]
      rw [alookup_cons, if_neg ha]
      exact ih h

/-! ### Terminal-event lemmas -/

theorem terminalIds_append (a b : List BEvent) :
    terminalIds (a ++ b) = terminalIds a ++ terminalIds b := by
  rw [terminalIds, terminalIds, terminalIds, List.filterMap_append]

theorem terminalIds_map_sessionFailed (l : List (SessionId × (PeerId × ConnectionId))) :
    terminalIds (l.map (fun kv => BEvent.SessionFailed kv.1 .ConnectionClosed)) =
      keysOf l := by
  induction l with
  | nil => rfl
  | cons kv rest ih =>
    simp only [terminalIds, List.map_cons, List.filterMap_cons, BEvent.terminalId] at ih ⊢
    rw [ih]
    simp [keysOf]

/-! ### Invariant preservation -/

theorem inv_of_eq_fields (b b2 : Behaviour)
    (ht : b2.session_id_to_peer_id_and_connection_id =
      b.session_id_to_peer_id_and_connection_id)
    (hh : b2.emitted_history = b.emitted_history)
    (hc : b2.next_outbound_session_id = b.next_outbound_session_id)
    (h : b.Inv) : b2.Inv := by
  unfold Behaviour.Inv at h ⊢
  rw [ht, hh, hc]
  exact h

theorem inv_on_connection_established (b : Behaviour) (p : PeerId)
    (c : ConnectionId) (h : b.Inv) : (b.on_connection_established p c).Inv :=
  inv_of_eq_fields b _ rfl rfl rfl h

theorem inv_send_data (b : Behaviour) (d : Data) (i : Nat) (h : b.Inv) :
    ((b.send_data d i).2).Inv := by
  unfold Behaviour.send_data
  rcases hr : b.get_peer_id_and_connection_id_from_session_id (.inbound i) with e | ⟨p2, c2⟩
  · exact h
  · exact inv_of_eq_fields b _ rfl rfl rfl h

theorem inv_close_session (b : Behaviour) (sid : SessionId) (h : b.Inv) :
    ((b.close_session sid).2).Inv := by
  unfold Behaviour.close_session
  rcases hr : b.get_peer_id_and_connection_id_from_session_id sid with e | ⟨p2, c2⟩
  · exact h
  · exact inv_of_eq_fields b _ rfl rfl rfl h

theorem inv_send_query (b : Behaviour) (q : Query) (p : PeerId) (h : b.Inv) :
    ((b.send_query q p).2).Inv := by
  obtain ⟨h1, h2, h3, h4⟩ := h
  unfold Behaviour.send_query
  rcases hc : b.connection_ids_get p with _ | ⟨c, rest⟩
  · exact ⟨h1, h2, h3, h4⟩
  · show Behaviour.Inv
      { b with
          next_outbound_session_id := b.next_outbound_session_id + 1
          session_id_to_peer_id_and_connection_id :=
            ainsert b.session_id_to_peer_id_and_connection_id
              (.outbound b.next_outbound_session_id) (p, c)
          pending_events := b.pending_events ++
            [.NotifyHandler p c (.CreateOutboundSession q b.next_outbound_session_id)] }
    refine ⟨?_, ?_, ?_, ?_⟩
    · intro sid hsid
      by_cases hs : sid = SessionId.outbound b.next_outbound_session_id
      · exfalso
        rw [hs] at hsid
        have hlt : b.next_outbound_session_id < b.next_outbound_session_id :=
          h3 b.next_outbound_session_id hsid
        omega
      · show alookup (ainsert b.session_id_to_peer_id_and_connection_id
          (SessionId.outbound b.next_outbound_session_id) (p, c)) sid = none
        rw [alookup_ainsert_ne _ _ hs]
        exact h1 sid hsid
    · intro o ho
      show o < b.next_outbound_session_id + 1
      rcases keysOf_ainsert_mem ho with he | hm
      · injection he with he2
        omega
      · exact Nat.lt_succ_of_lt (h2 o hm)
    · intro o ho
      show o < b.next_outbound_session_id + 1
      exact Nat.lt_succ_of_lt (h3 o ho)
    · exact nodup_keys_ainsert _ _ _ h4

theorem inv_table_erase_emit (b : Behaviour) (sid : SessionId) (e : BEvent)
    (hterm : BEvent.terminalId e = some sid)
    (hout : ∀ o, sid = SessionId.outbound o → o < b.next_outbound_session_id)
    (h : b.Inv) :
    Behaviour.Inv
      { b with
          session_id_to_peer_id_and_connection_id :=
            aerase b.session_id_to_peer_id_and_connection_id sid
          pending_events := b.pending_events ++ [.GenerateEvent e]
          emitted_history := b.emitted_history ++ [e] } := by
  obtain ⟨h1, h2, h3, h4⟩ := h
  have hsingle : terminalIds [e] = [sid] := by
    simp [terminalIds, List.filterMap_cons, hterm]
  refine ⟨?_, ?_, ?_, ?_⟩
  · intro sid2 hsid2
    rw [terminalIds_append, hsingle] at hsid2
    show alookup (aerase b.session_id_to_peer_id_and_connection_id sid) sid2 = none
    rcases List.mem_append.mp hsid2 with hold | hnew
    · by_cases hq : sid2 = sid
      · subst hq
        exact alookup_aerase_self _ _
      · rw [alookup_aerase_ne _ hq]
        exact h1 sid2 hold
    · have : sid2 = sid := by simpa using hnew
      subst this
      exact alookup_aerase_self _ _
  · intro o ho
    exact h2 o (keysOf_filter_subset _ _ ho)
  · intro o ho
    rw [terminalIds_append, hsingle] at ho
    rcases List.mem_append.mp ho with hold | hnew
    · exact h3 o hold
    · have : SessionId.outbound o = sid := by simpa using hnew
      exact hout o this.symm
  · exact nodup_keys_filter _ _ h4

theorem inv_table_insert_inbound (b : Behaviour) (p : PeerId) (c : ConnectionId)
    (q : Query) (iid : Nat) (p0 : PeerId)
    (hfresh : SessionId.inbound iid ∉ terminalIds b.emitted_history)
    (h : b.Inv) :
    Behaviour.Inv
      { b with
          session_id_to_peer_id_and_connection_id :=
            ainsert b.session_id_to_peer_id_and_connection_id (.inbound iid) (p, c)
          pending_events := b.pending_events ++
            [.GenerateEvent (.NewInboundSession q iid p0)]
          emitted_history := b.emitted_history ++ [.NewInboundSession q iid p0] } := by
  obtain ⟨h1, h2, h3, h4⟩ := h
  have hnil : terminalIds [BEvent.NewInboundSession q iid p0] = [] := by
    simp [terminalIds, List.filterMap_cons, BEvent.terminalId]
  refine ⟨?_, ?_, ?_, ?_⟩
  · intro sid hsid
    rw [terminalIds_append, hnil, List.append_nil] at hsid
    show alookup (ainsert b.session_id_to_peer_id_and_connection_id
      (SessionId.inbound iid) (p, c)) sid = none
    by_cases hs : sid = SessionId.inbound iid
    · exfalso
      exact hfresh (hs ▸ hsid)
    · rw [alookup_ainsert_ne _ _ hs]
      exact h1 sid hsid
  · intro o ho
    rcases keysOf_ainsert_mem ho with he | hm
    · exact absurd he (by simp)
    · exact h2 o hm
  · intro o ho
    rw [terminalIds_append, hnil, List.append_nil] at ho
    exact h3 o ho
  · exact nodup_keys_ainsert _ _ _ h4

theorem inv_on_connection_handler_event (b : Behaviour) (p : PeerId)
    (c : ConnectionId) (ev : HEvent) (h : b.Inv)
    (hwf : wfInput b (.handlerEvent p c ev) = true) :
    (b.on_connection_handler_event p c ev).Inv := by
  cases ev with
  | NewInboundSession q iid p0 =>
    simp only [wfInput, decide_eq_true_eq] at hwf
    exact inv_table_insert_inbound b p c q iid p0 hwf h
  | ReceivedData o d =>
    obtain ⟨h1, h2, h3, h4⟩ := h
    have hnil : terminalIds [BEvent.ReceivedData o d] = [] := by
      simp [terminalIds, List.filterMap_cons, BEvent.terminalId]
    show Behaviour.Inv
      { b with
          pending_events := b.pending_events ++ [.GenerateEvent (.ReceivedData o d)]
          emitted_history := b.emitted_history ++ [.ReceivedData o d] }
    refine ⟨?_, ?_, ?_, ?_⟩
    · intro sid hsid
      rw [terminalIds_append, hnil, List.append_nil] at hsid
      exact h1 sid hsid
    · intro o2 ho
      exact h2 o2 ho
    · intro o2 ho
      rw [terminalIds_append, hnil, List.append_nil] at ho
      exact h3 o2 ho
    · exact h4
  | SessionFailed sid err =>
    have hout : ∀ o, sid = SessionId.outbound o → o < b.next_outbound_session_id := by
      intro o ho
      subst ho
      simp only [wfInput, HEvent.terminalId, decide_eq_true_eq] at hwf
      exact hwf
    cases err with
    | Timeout t => exact inv_table_erase_emit b sid _ rfl hout h
    | IOError e => exact inv_table_erase_emit b sid _ rfl hout h
    | RemoteDoesntSupportProtocol n => exact inv_table_erase_emit b sid _ rfl hout h
  | SessionClosedByRequest sid =>
    have hout : ∀ o, sid = SessionId.outbound o → o < b.next_outbound_session_id := by
      intro o ho
      subst ho
      simp only [wfInput, HEvent.terminalId, decide_eq_true_eq] at hwf
      exact hwf
    exact inv_table_erase_emit b sid _ rfl hout h
  | SessionClosedByPeer sid =>
    have hout : ∀ o, sid = SessionId.outbound o → o < b.next_outbound_session_id := by
      intro o ho
      subst ho
      simp only [wfInput, HEvent.terminalId, decide_eq_true_eq] at hwf
      exact hwf
    exact inv_table_erase_emit b sid _ rfl hout h

theorem inv_on_connection_closed (b : Behaviour) (p : PeerId) (c : ConnectionId)
    (h : b.Inv) : (b.on_connection_closed p c).Inv := by
  obtain ⟨h1, h2, h3, h4⟩ := h
  refine ⟨?_, ?_, ?_, ?_⟩
  · intro sid hsid
    show alookup (b.session_id_to_peer_id_and_connection_id.filter
      (fun kv => !sessionMatches p c kv)) sid = none
    have hsid2 : sid ∈ terminalIds b.emitted_history ++
        keysOf (b.session_id_to_peer_id_and_connection_id.filter
          (fun kv => sessionMatches p c kv)) := by
      have := hsid
      rw [show (b.on_connection_closed p c).emitted_history =
        b.emitted_history ++
          ((b.session_id_to_peer_id_and_connection_id.filter
            (fun kv => sessionMatches p c kv)).map
              (fun kv => BEvent.SessionFailed kv.1 .ConnectionClosed)) from rfl,
        terminalIds_append, terminalIds_map_sessionFailed] at this
      exact this
    rcases List.mem_append.mp hsid2 with hold | hnew
    · exact alookup_filter_none _ _ _ (h1 sid hold)
    · cases hlk : alookup (b.session_id_to_peer_id_and_connection_id.filter
        (fun kv => !sessionMatches p c kv)) sid with
      | none => rfl
      | some v =>
        exfalso
        have hv := alookup_mem hlk
        rw [List.mem_filter] at hv
        rw [keysOf, List.mem_map] at hnew
        obtain ⟨kv, hkv, hfst⟩ := hnew
        rw [List.mem_filter] at hkv
        have heq : kv = (sid, v) :=
          nodup_keys_eq_of_mem h4 hkv.1 hv.1 (by rw [hfst])
        have hP := hkv.2
        rw [heq] at hP
        have hnP := hv.2
        rw [hP] at hnP
        simp at hnP
  · intro o ho
    exact h2 o (keysOf_filter_subset _ _ ho)
  · intro o ho
    rw [show (b.on_connection_closed p c).emitted_history =
      b.emitted_history ++
        ((b.session_id_to_peer_id_and_connection_id.filter
          (fun kv => sessionMatches p c kv)).map
            (fun kv => BEvent.SessionFailed kv.1 .ConnectionClosed)) from rfl,
      terminalIds_append, terminalIds_map_sessionFailed] at ho
    rcases List.mem_append.mp ho with hold | hnew
    · exact h3 o hold
    · exact h2 o (keysOf_filter_subset _ _ hnew)
  · exact nodup_keys_filter _ _ h4

theorem inv_step (b : Behaviour) (e : InputEvent) (h : b.Inv)
    (hwf : wfInput b e = true) : (b.step e).Inv := by
  cases e with
  | connectionEstablished p c => exact inv_on_connection_established b p c h
  | connectionClosed p c => exact inv_on_connection_closed b p c h
  | handlerEvent p c ev => exact inv_on_connection_handler_event b p c ev h hwf
  | sendQueryCall q p => exact inv_send_query b q p h
  | sendDataCall d i => exact inv_send_data b d i h
  | closeSessionCall sid => exact inv_close_session b sid h

theorem inv_run (tr : List InputEvent) :
    ∀ b : Behaviour, b.Inv → wfTrace b tr = true → (b.run tr).Inv := by
  induction tr with
  | nil => exact fun b h _ => h
  | cons e rest ih =>
    intro b h hwf
    rw [wfTrace, Bool.and_eq_true] at hwf
    exact ih (b.step e) (inv_step b e h hwf.1) hwf.2

theorem inv_new : Behaviour.new.Inv := by
  refine ⟨?_, ?_, ?_, ?_⟩ <;> simp [Behaviour.new, terminalIds, keysOf]

/-! ### Claim theorems: behaviour side -/

/-- C1: along any well-formed input trace of the behaviour (handler events carry
outbound ids already allocated by send_query and globally fresh NewInboundSession
ids, as the handlers guarantee), the routing table
session_id_to_peer_id_and_connection_id never contains a session id for which a
terminal event (SessionFailed, SessionClosedByRequest, SessionClosedByPeer) has
already been emitted upward: entries are inserted on NewInboundSession and by
send_query and removed at every terminal event. -/
theorem spec_C1_routing_table_no_terminal (tr : List InputEvent)
    (hwf : wfTrace Behaviour.new tr = true) (sid : SessionId)
    (hterm : sid ∈ terminalIds (Behaviour.new.run tr).emitted_history) :
    alookup (Behaviour.new.run tr).session_id_to_peer_id_and_connection_id sid =
      none :=
  (inv_run tr Behaviour.new inv_new hwf).1 sid hterm

/-- C1 witness: a concrete well-formed trace that establishes a connection, sends
a query and receives the terminal event of the outbound session; the routing
table no longer contains the id. -/
theorem spec_C1_routing_table_no_terminal_witness :
    alookup
      (Behaviour.run Behaviour.new
        [.connectionEstablished 0 0, .sendQueryCall 5 0,
         .handlerEvent 0 0
           (.SessionClosedByPeer (.outbound 0))]).session_id_to_peer_id_and_connection_id
      (SessionId.outbound 0) = none :=
  spec_C1_routing_table_no_terminal
    [.connectionEstablished 0 0, .sendQueryCall 5 0,
     .handlerEvent 0 0 (.SessionClosedByPeer (.outbound 0))]
    (by decide) (SessionId.outbound 0) (by decide)

/-- C2 evaluation at the failing input: after ConnectionEstablished(peer 0,
connection 0) followed by ConnectionClosed(peer 0, connection 0), the behaviour
still has peer 0 mapped to the non-empty connection set containing 0, although no
connection is established any more (the ConnectionClosed arm of on_swarm_event
never removes the connection id from connection_ids_map); the spec invariant
requires the set to be empty. -/
theorem spec_C2_connection_ids_map_stale :
    Behaviour.connection_ids_get
      (Behaviour.run Behaviour.new
        [.connectionEstablished 0 0, .connectionClosed 0 0]) 0 = [0] ∧
    establishedConnections [.connectionEstablished 0 0, .connectionClosed 0 0] =
      [] := by
  decide

/-- C3 counterexample: the claim — after the first terminal event for an id no
later terminal event with the same id is ever emitted upward — is false. In the
concrete well-formed trace below, a handler reports SessionClosedByPeer for
outbound session 0 and later (as happens when the behaviour had already enqueued
CloseSession for it) SessionClosedByRequest for the same id; the behaviour
forwards handler events unconditionally, so the terminal event for outbound 0 is
emitted upward twice. -/
theorem spec_C3_counterexample :
    ¬ (∀ tr : List InputEvent, wfTrace Behaviour.new tr = true →
        ∀ sid : SessionId,
          (terminalIds (Behaviour.new.run tr).emitted_history).count sid ≤ 1) := by
  intro hclaim
  have h := hclaim
    [.connectionEstablished 0 0, .sendQueryCall 7 0,
     .handlerEvent 0 0 (.SessionClosedByPeer (.outbound 0)),
     .handlerEvent 0 0 (.SessionClosedByRequest (.outbound 0))]
    (by decide) (SessionId.outbound 0)
  exact absurd h (by decide)

/-- C3 (amended): the routing entry of an id is removed at its first terminal
event, and a later ConnectionClosed emits no further terminal event bearing that
id, because the ConnectionClosed scan only emits for ids still present in the
routing table; terminal events delivered by a connection handler, by contrast,
are forwarded upward unconditionally and can repeat an id. -/
theorem spec_C3_connection_closed_silent (tr : List InputEvent)
    (hwf : wfTrace Behaviour.new tr = true) (sid : SessionId)
    (hterm : sid ∈ terminalIds (Behaviour.new.run tr).emitted_history)
    (p : PeerId) (c : ConnectionId) :
    alookup (Behaviour.new.run tr).session_id_to_peer_id_and_connection_id sid =
      none ∧
    List.count sid
        (terminalIds ((Behaviour.new.run tr).on_connection_closed p c).emitted_history) =
      List.count sid (terminalIds (Behaviour.new.run tr).emitted_history) := by
  have hnone := (inv_run tr Behaviour.new inv_new hwf).1 sid hterm
  refine ⟨hnone, ?_⟩
  rw [show ((Behaviour.new.run tr).on_connection_closed p c).emitted_history =
    (Behaviour.new.run tr).emitted_history ++
      (((Behaviour.new.run tr).session_id_to_peer_id_and_connection_id.filter
        (fun kv => sessionMatches p c kv)).map
          (fun kv => BEvent.SessionFailed kv.1 .ConnectionClosed)) from rfl,
    terminalIds_append, terminalIds_map_sessionFailed, List.count_append]
  have hzero : (keysOf ((Behaviour.new.run tr).session_id_to_peer_id_and_connection_id.filter
      (fun kv => sessionMatches p c kv))).count sid = 0 := by
    rw [List.count_eq_zero]
    intro hmem
    have hk := keysOf_filter_subset _ _ hmem
    exact (alookup_eq_none_iff _ _).mp hnone hk
  omega

/-- C3 witness: the amended theorem applied to a concrete trace: after the
terminal event of outbound session 0, a ConnectionClosed for peer 1 emits no
further terminal event for that id. -/
theorem spec_C3_connection_closed_silent_witness :
    alookup
      (Behaviour.run Behaviour.new
        [.connectionEstablished 0 0, .sendQueryCall 7 0,
         .handlerEvent 0 0
           (.SessionClosedByPeer (.outbound 0))]).session_id_to_peer_id_and_connection_id
      (SessionId.outbound 0) = none ∧
    List.count (SessionId.outbound 0)
        (terminalIds
          (Behaviour.on_connection_closed
            (Behaviour.run Behaviour.new
              [.connectionEstablished 0 0, .sendQueryCall 7 0,
               .handlerEvent 0 0 (.SessionClosedByPeer (.outbound 0))])
            1 1).emitted_history) =
      List.count (SessionId.outbound 0)
        (terminalIds
          (Behaviour.run Behaviour.new
            [.connectionEstablished 0 0, .sendQueryCall 7 0,
             .handlerEvent 0 0
               (.SessionClosedByPeer (.outbound 0))]).emitted_history) :=
  spec_C3_connection_closed_silent
    [.connectionEstablished 0 0, .sendQueryCall 7 0,
     .handlerEvent 0 0 (.SessionClosedByPeer (.outbound 0))]
    (by decide) (SessionId.outbound 0) (by decide) 1 1

/-- C4: send_query returns PeerNotConnected with the whole state unchanged
exactly when the peer has no recorded connection id; otherwise it picks one of
the connection ids of the peer (the head of the enumeration), returns the current
next_outbound_session_id, increments that counter by one, inserts the binding
from the returned id to (peer, connection) into the routing table, and appends
one NotifyHandler::One event carrying CreateOutboundSession with the query and
the returned id to pending_events. -/
theorem spec_C4_send_query (b : Behaviour) (q : Query) (p : PeerId) :
    (b.connection_ids_get p = [] → b.send_query q p = (.error .mk, b)) ∧
    (∀ c rest, b.connection_ids_get p = c :: rest →
      c ∈ b.connection_ids_get p ∧
      b.send_query q p =
        (.ok b.next_outbound_session_id,
          { b with
              next_outbound_session_id := b.next_outbound_session_id + 1
              session_id_to_peer_id_and_connection_id :=
                ainsert b.session_id_to_peer_id_and_connection_id
                  (.outbound b.next_outbound_session_id) (p, c)
              pending_events := b.pending_events ++
                [.NotifyHandler p c
                  (.CreateOutboundSession q b.next_outbound_session_id)] })) := by
  constructor
  · intro hc
    unfold Behaviour.send_query
    rw [hc]
  · intro c rest hc
    refine ⟨by rw [hc]; exact List.mem_cons_self _ _, ?_⟩
    unfold Behaviour.send_query
    rw [hc]

/-- C4 witness: at a state with no connection to peer 7 the call fails and
changes nothing; at a state with connection 9 to peer 4 the call returns
outbound id 0. -/
theorem spec_C4_send_query_witness :
    Behaviour.new.send_query 3 7 = (.error .mk, Behaviour.new) ∧
    ((Behaviour.new.on_connection_established 4 9).send_query 3 4).1 = .ok 0 := by
  constructor
  · exact (spec_C4_send_query Behaviour.new 3 7).1 (by decide)
  · have h := (spec_C4_send_query
      (Behaviour.new.on_connection_established 4 9) 3 4).2 9 [] (by decide)
    rw [h.2]
    rfl

/-- C5: send_data and close_session return SessionIdNotFoundError with the state
unchanged exactly when the id is absent from the routing table; otherwise each
returns success and appends exactly one NotifyHandler::One event (SendData,
respectively CloseSession) addressed to the recorded (peer, connection), and
close_session does not remove the routing entry (every other field, the routing
table included, is unchanged). -/
theorem spec_C5_send_data_close_session (b : Behaviour) (d : Data) (i : Nat)
    (sid : SessionId) :
    (alookup b.session_id_to_peer_id_and_connection_id (.inbound i) = none →
      b.send_data d i = (.error .mk, b)) ∧
    (∀ p c,
      alookup b.session_id_to_peer_id_and_connection_id (.inbound i) = some (p, c) →
      b.send_data d i =
        (.ok (),
          { b with
              pending_events := b.pending_events ++
                [.NotifyHandler p c (.SendData d i)] })) ∧
    (alookup b.session_id_to_peer_id_and_connection_id sid = none →
      b.close_session sid = (.error .mk, b)) ∧
    (∀ p c,
      alookup b.session_id_to_peer_id_and_connection_id sid = some (p, c) →
      b.close_session sid =
        (.ok (),
          { b with
              pending_events := b.pending_events ++
                [.NotifyHandler p c (.CloseSession sid)] })) := by
  refine ⟨?_, ?_, ?_, ?_⟩
  · intro hc
    have hg : b.get_peer_id_and_connection_id_from_session_id (.inbound i) =
        .error .mk := by
      unfold Behaviour.get_peer_id_and_connection_id_from_session_id
      rw [hc]
    unfold Behaviour.send_data
    rw [hg]
  · intro p c hc
    have hg : b.get_peer_id_and_connection_id_from_session_id (.inbound i) =
        .ok (p, c) := by
      unfold Behaviour.get_peer_id_and_connection_id_from_session_id
      rw [hc]
    unfold Behaviour.send_data
    rw [hg]
  · intro hc
    have hg : b.get_peer_id_and_connection_id_from_session_id sid = .error .mk := by
      unfold Behaviour.get_peer_id_and_connection_id_from_session_id
      rw [hc]
    unfold Behaviour.close_session
    rw [hg]
  · intro p c hc
    have hg : b.get_peer_id_and_connection_id_from_session_id sid = .ok (p, c) := by
      unfold Behaviour.get_peer_id_and_connection_id_from_session_id
      rw [hc]
    unfold Behaviour.close_session
    rw [hg]

/-- C5 witness: on the empty state both calls fail with the state unchanged; on a
state with inbound session 6 routed to (peer 3, connection 4) both calls return
success. -/
theorem spec_C5_send_data_close_session_witness :
    Behaviour.new.send_data 1 0 = (.error .mk, Behaviour.new) ∧
    Behaviour.new.close_session (.outbound 0) = (.error .mk, Behaviour.new) ∧
    ((Behaviour.new.on_connection_handler_event 3 4
      (.NewInboundSession 9 6 3)).send_data 1 6).1 = .ok () ∧
    ((Behaviour.new.on_connection_handler_event 3 4
      (.NewInboundSession 9 6 3)).close_session (.inbound 6)).1 = .ok () := by
  refine ⟨?_, ?_, ?_, ?_⟩
  · exact (spec_C5_send_data_close_session Behaviour.new 1 0 (.outbound 0)).1
      (by decide)
  · exact (spec_C5_send_data_close_session Behaviour.new 1 0 (.outbound 0)).2.2.1
      (by decide)
  · have h := (spec_C5_send_data_close_session
      (Behaviour.new.on_connection_handler_event 3 4 (.NewInboundSession 9 6 3))
      1 6 (.inbound 6)).2.1 3 4 (by decide)
    rw [h]
  · have h := (spec_C5_send_data_close_session
      (Behaviour.new.on_connection_handler_event 3 4 (.NewInboundSession 9 6 3))
      1 6 (.inbound 6)).2.2.2 3 4 (by decide)
    rw [h]

/-! ### Claim theorems: handler side -/

/-- C6: on CloseSession with an inbound id the handler inserts the id into
inbound_sessions_marked_to_end and immediately enqueues SessionClosedByRequest,
touching neither session map (the inbound engine is closed asynchronously during
later polls); on CloseSession with an outbound id it immediately removes the
outbound engine from id_to_outbound_session and enqueues SessionClosedByRequest. -/
theorem spec_C6_handler_close_session (h : Handler) (i o : Nat) :
    (i ∈ (h.on_behaviour_event (.CloseSession (.inbound i))).inbound_sessions_marked_to_end ∧
      (h.on_behaviour_event (.CloseSession (.inbound i))).pending_events =
        h.pending_events ++
          [.NotifyBehaviour (.SessionClosedByRequest (.inbound i))] ∧
      (h.on_behaviour_event (.CloseSession (.inbound i))).id_to_inbound_session =
        h.id_to_inbound_session ∧
      (h.on_behaviour_event (.CloseSession (.inbound i))).id_to_outbound_session =
        h.id_to_outbound_session) ∧
    ((h.on_behaviour_event (.CloseSession (.outbound o))).id_to_outbound_session =
        h.id_to_outbound_session.filter (fun x => decide (x ≠ o)) ∧
      o ∉ (h.on_behaviour_event (.CloseSession (.outbound o))).id_to_outbound_session ∧
      (h.on_behaviour_event (.CloseSession (.outbound o))).pending_events =
        h.pending_events ++
          [.NotifyBehaviour (.SessionClosedByRequest (.outbound o))] ∧
      (h.on_behaviour_event (.CloseSession (.outbound o))).id_to_inbound_session =
        h.id_to_inbound_session) := by
  refine ⟨⟨?_, rfl, rfl, rfl⟩, rfl, ?_, rfl, rfl⟩
  · show i ∈ (if i ∈ h.inbound_sessions_marked_to_end then
      h.inbound_sessions_marked_to_end else h.inbound_sessions_marked_to_end ++ [i])
    by_cases hm : i ∈ h.inbound_sessions_marked_to_end
    · rw [if_pos hm]
      exact hm
    · rw [if_neg hm]
      exact List.mem_append_right _ (List.mem_singleton.mpr rfl)
  · show o ∉ h.id_to_outbound_session.filter (fun x => decide (x ≠ o))
    intro hmem
    rw [List.mem_filter] at hmem
    exact (of_decide_eq_true hmem.2) rfl

/-- C7: on SendData for an inbound id whose engine exists, is not marked to end
and is not closing, the data is appended to the queue of that engine and nothing
else changes (no event is emitted); when the engine does not exist, or the id is
marked to end, the request is dropped and the handler state is completely
unchanged. -/
theorem spec_C7_handler_send_data (h : Handler) (d : Data) (i : Nat) :
    (∀ s, alookup h.id_to_inbound_session i = some s →
      i ∉ h.inbound_sessions_marked_to_end →
      s.closing = false →
      (h.on_behaviour_event (.SendData d i)).id_to_inbound_session =
        aupdate h.id_to_inbound_session i (fun s0 => s0.add_message_to_queue d) ∧
      alookup (h.on_behaviour_event (.SendData d i)).id_to_inbound_session i =
        some { s with pending_messages := s.pending_messages ++ [d] } ∧
      (h.on_behaviour_event (.SendData d i)).pending_events = h.pending_events) ∧
    (alookup h.id_to_inbound_session i = none →
      h.on_behaviour_event (.SendData d i) = h) ∧
    (i ∈ h.inbound_sessions_marked_to_end →
      h.on_behaviour_event (.SendData d i) = h) := by
  refine ⟨?_, ?_, ?_⟩
  · intro s hs hm hc
    have hred : h.on_behaviour_event (.SendData d i) =
        { h with
            id_to_inbound_session :=
              aupdate h.id_to_inbound_session i
                (fun s0 => s0.add_message_to_queue d) } := by
      simp only [Handler.on_behaviour_event]
      rw [hs, if_neg hm]
    refine ⟨by rw [hred], ?_, by rw [hred]⟩
    rw [hred]
    show alookup (aupdate h.id_to_inbound_session i
      (fun s0 => s0.add_message_to_queue d)) i = _
    rw [alookup_aupdate_self _ hs]
    unfold InboundSession.add_message_to_queue
    rw [hc]
    simp
  · intro hn
    simp only [Handler.on_behaviour_event]
    rw [hn]
  · intro hm
    simp only [Handler.on_behaviour_event]
    cases halo : alookup h.id_to_inbound_session i with
    | none => rfl
    | some s => rw [if_pos hm]

/-- C7 witness: on a handler with inbound engine 6 freshly installed, SendData
appends the frame to the queue of engine 6; on a fresh handler the request is
dropped. -/
theorem spec_C7_handler_send_data_witness :
    alookup (((Handler.new ⟨"p", 5⟩ 0 2).on_connection_event
        (.FullyNegotiatedInbound 9 6)).on_behaviour_event
          (.SendData 4 6)).id_to_inbound_session 6 =
      some { pending_messages := [4], closing := false } ∧
    (Handler.new ⟨"p", 5⟩ 0 2).on_behaviour_event (.SendData 4 6) =
      Handler.new ⟨"p", 5⟩ 0 2 := by
  constructor
  · have h := (spec_C7_handler_send_data
      ((Handler.new ⟨"p", 5⟩ 0 2).on_connection_event (.FullyNegotiatedInbound 9 6))
      4 6).1 InboundSession.new (by decide) (by decide) (by decide)
    rw [h.2.1]
    rfl
  · exact (spec_C7_handler_send_data (Handler.new ⟨"p", 5⟩ 0 2) 4 6).2.1 (by decide)

/-- C10: on CloseSession with an outbound id, the handler enqueues
SessionClosedByRequest unconditionally — also when no outbound engine exists
under that id, in which case the engine map is left unchanged, since the removal
and the emission are performed without checking presence. -/
theorem spec_C10_close_outbound_unconditional (h : Handler) (o : Nat) :
    (h.on_behaviour_event (.CloseSession (.outbound o))).pending_events =
      h.pending_events ++
        [.NotifyBehaviour (.SessionClosedByRequest (.outbound o))] ∧
    (o ∉ h.id_to_outbound_session →
      (h.on_behaviour_event (.CloseSession (.outbound o))).id_to_outbound_session =
        h.id_to_outbound_session) := by
  refine ⟨rfl, ?_⟩
  intro ho
  show h.id_to_outbound_session.filter (fun x => decide (x ≠ o)) =
    h.id_to_outbound_session
  rw [List.filter_eq_self]
  intro a ha
  exact decide_eq_true (fun he => ho (he ▸ ha))

/-- C10 witness: a fresh handler has no outbound engine 3, yet CloseSession for
outbound 3 still enqueues SessionClosedByRequest and leaves the engine map
unchanged. -/
theorem spec_C10_close_outbound_unconditional_witness :
    ((Handler.new ⟨"p", 5⟩ 0 2).on_behaviour_event
      (.CloseSession (.outbound 3))).pending_events =
      (Handler.new ⟨"p", 5⟩ 0 2).pending_events ++
        [.NotifyBehaviour (.SessionClosedByRequest (.outbound 3))] ∧
    ((Handler.new ⟨"p", 5⟩ 0 2).on_behaviour_event
      (.CloseSession (.outbound 3))).id_to_outbound_session =
      (Handler.new ⟨"p", 5⟩ 0 2).id_to_outbound_session :=
  ⟨(spec_C10_close_outbound_unconditional (Handler.new ⟨"p", 5⟩ 0 2) 3).1,
   (spec_C10_close_outbound_unconditional (Handler.new ⟨"p", 5⟩ 0 2) 3).2
     (by decide)⟩

/-! ### Poll-pass and counter lemmas -/

theorem foldl_outbound_eq (outP : Nat → OutPollRes) (l : List Nat)
    (k0 : List Nat) (e0 : List HandlerOutEvent) :
    l.foldl
      (fun acc oid =>
        let r := pollOutboundStep outP oid
        (if r.1 then acc.1 ++ [oid] else acc.1, acc.2 ++ r.2))
      (k0, e0) =
    (k0 ++ l.filter (fun oid => (pollOutboundStep outP oid).1),
      e0 ++ l.flatMap (fun oid => (pollOutboundStep outP oid).2)) := by
  induction l generalizing k0 e0 with
  | nil => simp
  | cons o rest ih =>
    by_cases hk : (pollOutboundStep outP o).1 = true
    · simp [List.foldl_cons, List.filter_cons, List.flatMap_cons, hk, ih,
        List.append_assoc]
    · simp [List.foldl_cons, List.filter_cons, List.flatMap_cons, hk, ih,
        List.append_assoc]

theorem pollOutboundPhase_eq (h : Handler) (outP : Nat → OutPollRes) :
    pollOutboundPhase h outP =
      { h with
          id_to_outbound_session :=
            h.id_to_outbound_session.filter (fun oid => (pollOutboundStep outP oid).1)
          pending_events := h.pending_events ++
            h.id_to_outbound_session.flatMap
              (fun oid => (pollOutboundStep outP oid).2) } := by
  simp only [pollOutboundPhase]
  rw [foldl_outbound_eq]
  simp

theorem allocateInboundIds_spec (n : Nat) :
    ∀ h : Handler,
      (allocateInboundIds h n).1 = List.range' h.next_inbound_session_id n ∧
      (allocateInboundIds h n).2.next_inbound_session_id =
        h.next_inbound_session_id + n := by
  induction n with
  | zero => exact fun h => ⟨rfl, rfl⟩
  | succ n ih =>
    intro h
    constructor
    · simp only [allocateInboundIds, Handler.listen_protocol]
      rw [(ih _).1]
      rw [List.range'_succ]
    · simp only [allocateInboundIds, Handler.listen_protocol]
      rw [(ih _).2]
      show h.next_inbound_session_id + 1 + n = h.next_inbound_session_id + (n + 1)
      omega

theorem step_counter_eq (b : Behaviour) (e : InputEvent)
    (hne : ∀ q p, e ≠ .sendQueryCall q p) :
    (b.step e).next_outbound_session_id = b.next_outbound_session_id := by
  cases e with
  | connectionEstablished p c => rfl
  | connectionClosed p c => rfl
  | handlerEvent p c ev => rfl
  | sendQueryCall q p => exact absurd rfl (hne q p)
  | sendDataCall d i =>
    show ((b.send_data d i).2).next_outbound_session_id = _
    unfold Behaviour.send_data
    rcases hr : b.get_peer_id_and_connection_id_from_session_id (.inbound i) with
      e2 | ⟨p2, c2⟩
    · rfl
    · rfl
  | closeSessionCall sid =>
    show ((b.close_session sid).2).next_outbound_session_id = _
    unfold Behaviour.close_session
    rcases hr : b.get_peer_id_and_connection_id_from_session_id sid with
      e2 | ⟨p2, c2⟩
    · rfl
    · rfl

theorem outboundIdsAllocated_range (tr : List InputEvent) :
    ∀ b : Behaviour,
      b.outboundIdsAllocated tr =
        List.range' b.next_outbound_session_id
          (b.outboundIdsAllocated tr).length := by
  induction tr with
  | nil => exact fun b => rfl
  | cons e rest ih =>
    intro b
    cases e with
    | sendQueryCall q p =>
      simp only [Behaviour.outboundIdsAllocated, Behaviour.step, Behaviour.send_query]
      rcases hc : b.connection_ids_get p with _ | ⟨c, cs⟩
      · simpa using ih b
      · simp only [List.cons_append, List.nil_append, List.length_cons]
        rw [ih _]
        simp [List.length_range', List.range'_succ]
    | connectionEstablished p c =>
      have hc := step_counter_eq b (.connectionEstablished p c)
        (fun q p2 h => InputEvent.noConfusion h)
      simp only [Behaviour.outboundIdsAllocated, List.nil_append]
      rw [← hc]
      exact ih _
    | connectionClosed p c =>
      have hc := step_counter_eq b (.connectionClosed p c)
        (fun q p2 h => InputEvent.noConfusion h)
      simp only [Behaviour.outboundIdsAllocated, List.nil_append]
      rw [← hc]
      exact ih _
    | handlerEvent p c ev =>
      have hc := step_counter_eq b (.handlerEvent p c ev)
        (fun q p2 h => InputEvent.noConfusion h)
      simp only [Behaviour.outboundIdsAllocated, List.nil_append]
      rw [← hc]
      exact ih _
    | sendDataCall d i =>
      have hc := step_counter_eq b (.sendDataCall d i)
        (fun q p2 h => InputEvent.noConfusion h)
      simp only [Behaviour.outboundIdsAllocated, List.nil_append]
      rw [← hc]
      exact ih _
    | closeSessionCall sid =>
      have hc := step_counter_eq b (.closeSessionCall sid)
        (fun q p2 h => InputEvent.noConfusion h)
      simp only [Behaviour.outboundIdsAllocated, List.nil_append]
      rw [← hc]
      exact ih _

/-- C8: in one handler poll pass, with the asynchronous engine outcomes supplied
by oracles, each outbound engine that yields a data item causes ReceivedData to
be enqueued and is kept; one that yields an io error causes SessionFailed with
IOError to be enqueued and is removed; one that yields a clean end causes
SessionClosedByPeer to be enqueued and is removed; a pending one is kept; and
only after the inbound loop and then the outbound loop have been fully processed
does poll pop the front element of pending_events (Ready with exactly that one
event), or return Pending when the queue is empty. -/
theorem spec_C8_poll_pass (h : Handler) (inb1 inb2 : Nat → InbPollRes)
    (outP : Nat → OutPollRes) (h1 h2 : Handler)
    (hh1 : h1 = pollInboundPhase h inb1 inb2)
    (hh2 : h2 = pollOutboundPhase h1 outP) :
    h2.id_to_outbound_session =
      h1.id_to_outbound_session.filter (fun oid => (pollOutboundStep outP oid).1) ∧
    h2.pending_events = h1.pending_events ++
      h1.id_to_outbound_session.flatMap (fun oid => (pollOutboundStep outP oid).2) ∧
    (∀ oid, oid ∈ h1.id_to_outbound_session →
      (∀ d, outP oid = .item d →
        oid ∈ h2.id_to_outbound_session ∧
        HandlerOutEvent.NotifyBehaviour (.ReceivedData oid d) ∈ h2.pending_events) ∧
      (∀ e, outP oid = .ioError e →
        oid ∉ h2.id_to_outbound_session ∧
        HandlerOutEvent.NotifyBehaviour
          (.SessionFailed (.outbound oid) (.IOError e)) ∈ h2.pending_events) ∧
      (outP oid = .streamEnd →
        oid ∉ h2.id_to_outbound_session ∧
        HandlerOutEvent.NotifyBehaviour
          (.SessionClosedByPeer (.outbound oid)) ∈ h2.pending_events) ∧
      (outP oid = .pending → oid ∈ h2.id_to_outbound_session)) ∧
    Handler.poll h inb1 inb2 outP =
      (match h2.pending_events with
        | [] => (none, h2)
        | e :: rest => (some e, { h2 with pending_events := rest })) := by
  subst hh2
  subst hh1
  have hout := pollOutboundPhase_eq (pollInboundPhase h inb1 inb2) outP
  refine ⟨by rw [hout], by rw [hout], ?_, by rw [Handler.poll, hout]⟩
  intro oid hmem
  refine ⟨?_, ?_, ?_, ?_⟩
  · intro d hd
    constructor
    · rw [hout]
      exact List.mem_filter.mpr ⟨hmem, by simp [pollOutboundStep, hd]⟩
    · rw [hout]
      refine List.mem_append.mpr (Or.inr ?_)
      exact List.mem_flatMap.mpr ⟨oid, hmem, by simp [pollOutboundStep, hd]⟩
  · intro e he
    constructor
    · rw [hout]
      intro hmem2
      have hf := (List.mem_filter.mp hmem2).2
      rw [pollOutboundStep, he] at hf
      simp at hf
    · rw [hout]
      refine List.mem_append.mpr (Or.inr ?_)
      exact List.mem_flatMap.mpr ⟨oid, hmem, by simp [pollOutboundStep, he]⟩
  · intro he
    constructor
    · rw [hout]
      intro hmem2
      have hf := (List.mem_filter.mp hmem2).2
      rw [pollOutboundStep, he] at hf
      simp at hf
    · rw [hout]
      refine List.mem_append.mpr (Or.inr ?_)
      exact List.mem_flatMap.mpr ⟨oid, hmem, by simp [pollOutboundStep, he]⟩
  · intro he
    rw [hout]
    exact List.mem_filter.mpr ⟨hmem, by simp [pollOutboundStep, he]⟩

/-- C8 witness: a handler with outbound engine 0 whose stream yields the data
item 4; the poll pass keeps the engine and enqueues ReceivedData. -/
theorem spec_C8_poll_pass_witness :
    0 ∈ (pollOutboundPhase
      (pollInboundPhase
        ((Handler.new ⟨"p", 5⟩ 0 2).on_connection_event (.FullyNegotiatedOutbound 0))
        (fun _ => InbPollRes.pending) (fun _ => InbPollRes.pending))
      (fun _ => OutPollRes.item 4)).id_to_outbound_session ∧
    HandlerOutEvent.NotifyBehaviour (.ReceivedData 0 4) ∈
      (pollOutboundPhase
        (pollInboundPhase
          ((Handler.new ⟨"p", 5⟩ 0 2).on_connection_event
            (.FullyNegotiatedOutbound 0))
          (fun _ => InbPollRes.pending) (fun _ => InbPollRes.pending))
        (fun _ => OutPollRes.item 4)).pending_events :=
  ((spec_C8_poll_pass
      ((Handler.new ⟨"p", 5⟩ 0 2).on_connection_event (.FullyNegotiatedOutbound 0))
      (fun _ => InbPollRes.pending) (fun _ => InbPollRes.pending)
      (fun _ => OutPollRes.item 4) _ _ rfl rfl).2.2.1 0 (by decide)).1 4 rfl

/-- C9: both session id counters advance by exactly one per allocation and never
recycle: listen_protocol returns the previous value of the shared inbound
counter and increments it, the iterated allocation sequence is the strictly
increasing range starting at the current counter, and the outbound ids returned
by the successful send_query calls of any trace from a fresh behaviour are
0, 1, 2, ... in order. -/
theorem spec_C9_counters :
    (∀ h : Handler,
      (h.listen_protocol).1.2.1 = h.next_inbound_session_id ∧
      (h.listen_protocol).2.next_inbound_session_id =
        h.next_inbound_session_id + 1) ∧
    (∀ (h : Handler) (n : Nat),
      (allocateInboundIds h n).1 = List.range' h.next_inbound_session_id n ∧
      (allocateInboundIds h n).2.next_inbound_session_id =
        h.next_inbound_session_id + n ∧
      List.Pairwise (· < ·) (allocateInboundIds h n).1) ∧
    (∀ tr : List InputEvent,
      Behaviour.new.outboundIdsAllocated tr =
        List.range (Behaviour.new.outboundIdsAllocated tr).length) := by
  refine ⟨fun h => ⟨rfl, rfl⟩, ?_, ?_⟩
  · intro h n
    refine ⟨(allocateInboundIds_spec n h).1, (allocateInboundIds_spec n h).2, ?_⟩
    rw [(allocateInboundIds_spec n h).1]
    exact List.pairwise_lt_range' _ _
  · intro tr
    have h0 := outboundIdsAllocated_range tr Behaviour.new
    rw [List.range_eq_range']
    exact h0

end StreamedData
